import Mathlib

/-!
Verification development for the nutrition computation engine of the
Recipify backend (services/nutrition_service_v2.py).  Python floats are
modelled as exact rationals (ℚ); Python strings as Lean strings over
their character lists.  Dictionaries whose insertion order matters for
lookups are modelled as association lists in source order.
-/

-- ## Character and string utilities (Python semantics, ASCII fragment)

-- Python str.split / str.strip / regex \s whitespace (ASCII part).
def isSpaceP (c : Char) : Bool :=
  c = ' ' || c = '\t' || c = '\n' || c = '\r' || c = '\x0b' || c = '\x0c'

-- str.lower (ASCII fragment, which is all this service's tables use).
def lowerL (l : List Char) : List Char := l.map Char.toLower

def lowerS (s : String) : String := ⟨lowerL s.data⟩

-- needle `isPre` hay : needle is a leading run of hay.
def isPre : List Char → List Char → Bool
  | [], _ => true
  | _ :: _, [] => false
  | a :: as, b :: bs => a == b && isPre as bs

-- Python substring containment test (`needle in hay`).
def isSubstr : List Char → List Char → Bool
  | n, [] => isPre n []
  | n, c :: t => isPre n (c :: t) || isSubstr n t

def substrS (n h : String) : Bool := isSubstr n.data h.data

-- Python str.split() with no argument: split on whitespace runs, no empties.
def splitWSAux : List Char → List Char → List (List Char)
  | [], acc => if acc.isEmpty then [] else [acc.reverse]
  | c :: rest, acc =>
    if isSpaceP c then
      if acc.isEmpty then splitWSAux rest [] else acc.reverse :: splitWSAux rest []
    else splitWSAux rest (c :: acc)

def splitWS (l : List Char) : List (List Char) := splitWSAux l []

-- Python str.strip().
def stripL (l : List Char) : List Char :=
  ((l.dropWhile isSpaceP).reverse.dropWhile isSpaceP).reverse

def stripS (s : String) : String := ⟨stripL s.data⟩

-- Drop through the first closing parenthesis (used by removeParens).
def dropParen (l : List Char) : List Char := (l.dropWhile (fun c => c != ')')).tail

-- re.sub(r'\([^)]*\)', '', s): remove every parenthesised group that has a
-- closing parenthesis; an unclosed opening parenthesis stays.  The fuel
-- argument only serves structural recursion: each step consumes at least
-- one character, so fuel = length never runs out.
def removeParensAux : Nat → List Char → List Char
  | 0, l => l
  | _ + 1, [] => []
  | fuel + 1, c :: rest =>
    if c = '(' && rest.contains ')' then removeParensAux fuel (dropParen rest)
    else c :: removeParensAux fuel rest

def removeParens (l : List Char) : List Char := removeParensAux l.length l

-- ## Numeric string parsing (float(), Fraction())

def digToNat (c : Char) : Nat := c.toNat - 48

def digitsVal (l : List Char) : Nat := l.foldl (fun a c => a * 10 + digToNat c) 0

-- Python float(str) on the decimal forms this service's regexes can
-- produce: optional sign, digits with at most one decimal point.
-- (float() also accepts exponents, inf, nan; none can reach parse_amount
-- from the ingredient regex, so they are out of the model.)
def parseFloat (s : String) : Option ℚ :=
  let l := stripL s.data
  let sl : ℚ × List Char :=
    match l with
    | '+' :: t => (1, t)
    | '-' :: t => (-1, t)
    | _ => (1, l)
  let ip := sl.2.takeWhile Char.isDigit
  let rest := sl.2.drop ip.length
  match rest with
  | [] => if ip.isEmpty then none else some (sl.1 * digitsVal ip)
  | '.' :: fp =>
    if fp.all Char.isDigit && (!ip.isEmpty || !fp.isEmpty) then
      some (sl.1 * ((digitsVal ip : ℚ) + (digitsVal fp : ℚ) / (10 ^ fp.length)))
    else none
  | _ => none

-- Python Fraction(str) on the forms reachable here: "a/b" with integer
-- parts (denominator 0 raises, modelled as none), else a decimal string.
def parseFraction (s : String) : Option ℚ :=
  let l := stripL s.data
  let sl : ℚ × List Char :=
    match l with
    | '+' :: t => (1, t)
    | '-' :: t => (-1, t)
    | _ => (1, l)
  if sl.2.contains '/' then
    let num := sl.2.takeWhile (fun c => c != '/')
    let den := (sl.2.dropWhile (fun c => c != '/')).tail
    if !num.isEmpty && num.all Char.isDigit && !den.isEmpty && den.all Char.isDigit then
      if digitsVal den = 0 then none
      else some (sl.1 * (digitsVal num : ℚ) / (digitsVal den : ℚ))
    else none
  else parseFloat s

-- Tail of NutritionServiceV2.parse_amount after the mixed-number branch.
def parseRest (t : List Char) : Option ℚ :=
  if t.contains '/' then parseFraction ⟨t⟩
  else match parseFloat ⟨t⟩ with
    | some v => some v
    | none => some 1

-- NutritionServiceV2.parse_amount.  `none` models an uncaught exception
-- (only reachable from a zero denominator); the final ValueError catch
-- returning 1.0 is the `parseRest` fallback.
def parse_amount (s : String) : Option ℚ :=
  if s = "" then some 1
  else
    let t := stripL (removeParens s.data)
    match splitWS t with
    | [p0, p1] =>
      if p1.contains '/' then
        match parseFloat ⟨p0⟩, parseFraction ⟨p1⟩ with
        | some w, some f => some (w + f)
        | _, _ => none
      else parseRest t
    | _ => parseRest t

-- ## Conversion tables (NutritionServiceV2.__init__), in source order

def liquid_density : List (String × ℚ) :=
  [("water", 1.0), ("milk", 1.03), ("olive oil", 0.92), ("vegetable oil", 0.92),
   ("honey", 1.42), ("maple syrup", 1.37), ("soy sauce", 1.1), ("vinegar", 1.01),
   ("default", 1.0)]

def serving_sizes : List (String × ℚ) :=
  [("chicken breast", 85), ("salmon", 85), ("beef", 85), ("egg", 50),
   ("potato", 150), ("potatoes", 150), ("onion", 110), ("tomato", 123),
   ("carrot", 61), ("lettuce", 47), ("spinach", 30), ("avocado", 50),
   ("cheese", 28), ("parmesan cheese", 5), ("butter", 14.2), ("milk", 244),
   ("yogurt", 170), ("salt", 6), ("pepper", 2), ("herbs", 1), ("spices", 2),
   ("baking soda", 4.6), ("default", 30)]

def volume_conversion : List (String × ℚ) :=
  [("cup", 236.588), ("tbsp", 14.787), ("tsp", 4.929), ("fl oz", 29.574),
   ("ml", 1), ("l", 1000), ("pint", 473.176), ("quart", 946.353),
   ("gallon", 3785.41)]

def weight_conversion : List (String × ℚ) :=
  [("g", 1), ("kg", 1000), ("mg", 0.001), ("oz", 28.3495), ("lb", 453.592),
   ("pound", 453.592)]

-- Exact-key dictionary lookup.
def lookupQ (tbl : List (String × ℚ)) (k : String) : Option ℚ :=
  (tbl.find? (fun p => p.1 == k)).map (fun p => p.2)

-- serving_sizes['default'].
def serving_default : ℚ := 30

-- Direct dict access serving_sizes[k]; every call site guards k to be a
-- present key, so the 0 default is unreachable.
def servingAt (k : String) : ℚ := (lookupQ serving_sizes k).getD 0

-- NutritionServiceV2.get_density_factor.
def get_density_factor (ingredient : String) : ℚ :=
  match liquid_density.find? (fun p => substrS p.1 (lowerS ingredient)) with
  | some p => p.2
  | none => 1

-- Lines 161-167: the branch taken when no unit is given.
def noUnitBranch (amount : ℚ) (ingredient : String) : ℚ :=
  match serving_sizes.find? (fun p => substrS p.1 (lowerS ingredient)) with
  | some p => amount * p.2
  | none => amount * serving_default

-- Lines 201-207: the code after the volume-unit block, reached whenever a
-- unit is present but no earlier branch returned.
def tailUnits (amount : ℚ) (u : String) : ℚ :=
  if u = "pinch" ∨ u = "dash" then amount * 0.5
  else if u = "handful" then amount * 30
  else amount * serving_default

-- NutritionServiceV2.convert_to_grams.  `none` and the empty string are
-- both falsy in Python, so both take the no-unit branch.
def convert_to_grams (amount : ℚ) (unit : Option String) (ingredient : String) : ℚ :=
  match unit with
  | none => noUnitBranch amount ingredient
  | some u0 =>
    if u0 = "" then noUnitBranch amount ingredient
    else
      let u := stripS (lowerS u0)
      match lookupQ weight_conversion u with
      | some w => amount * w
      | none =>
        let il := lowerS ingredient
        match lookupQ volume_conversion u with
        | some vml =>
          if il = "water" then amount * vml
          else if il = "salt" ∨ il = "baking soda" then
            if u = "tsp" then amount * servingAt il
            else if u = "tbsp" then amount * (servingAt il * 3)
            else tailUnits amount u
          else if il = "butter" ∨ il = "parmesan cheese" then
            if u = "tbsp" then amount * servingAt il
            else if u = "cup" then amount * (servingAt il * 16)
            else tailUnits amount u
          else if substrS "potato" il ∧ u = "cup" then amount * 150
          else amount * vml * get_density_factor ingredient
        | none => tailUnits amount u

-- ## Ingredient-line regex (parse_ingredient_string, lines 430-456)
-- The item pattern is
--   ^((?:\d*\s*\d+/\d+|\d+(?:\.\d+)?)?)\s*((?:cup|tbsp|tsp|g|oz|lb|ml|l|pound|pinch|dash|handful)s?)?\s*(?:of\s+)?(.+)$
-- with re.IGNORECASE.  It is embedded as a backtracking matcher: a piece
-- maps the input to the list of (consumed, rest) splits in the engine's
-- priority order (greedy quantifiers longest first, alternatives in
-- written order); the first complete parse wins, as in Python re.

-- All (consumed, rest) splits of one pattern piece, best first.
abbrev Piece : Type := List Char → List (List Char × List Char)

-- Case-insensitive literal: does the lowercase literal lead the input?
def ciPre : List Char → List Char → Bool
  | [], _ => true
  | _ :: _, [] => false
  | a :: as, b :: bs => a == b.toLower && ciPre as bs

def litM (lit : List Char) : Piece := fun l =>
  if ciPre lit l then [(l.take lit.length, l.drop lit.length)] else []

-- Greedy star over a character class: longest run first, down to empty.
def starM (p : Char → Bool) : Piece := fun l =>
  let n := (l.takeWhile p).length
  (List.range (n + 1)).reverse.map (fun k => (l.take k, l.drop k))

-- Greedy plus over a character class: longest run first, at least one.
def plusM (p : Char → Bool) : Piece := fun l =>
  let n := (l.takeWhile p).length
  (List.range n).reverse.map (fun k => (l.take (k + 1), l.drop (k + 1)))

def seqM (f g : Piece) : Piece := fun l =>
  (f l).flatMap (fun p => (g p.2).map (fun q => (p.1 ++ q.1, q.2)))

def optM (f : Piece) : Piece := fun l => f l ++ [([], l)]

def digitB (c : Char) : Bool := c.isDigit

-- Group 1, first alternative: \d*\s*\d+/\d+ .
def amountAlt1 : Piece :=
  seqM (starM digitB) (seqM (starM isSpaceP)
    (seqM (plusM digitB) (seqM (litM ['/']) (plusM digitB))))

-- Group 1, second alternative: \d+(?:\.\d+)? .
def amountAlt2 : Piece := seqM (plusM digitB) (optM (seqM (litM ['.']) (plusM digitB)))

-- Group 1 with its outer ?: first alternative, second, then empty.
def amountGroup : Piece := fun l => amountAlt1 l ++ amountAlt2 l ++ [([], l)]

-- Unit vocabulary in the pattern's alternation order.
def unitWords : List String :=
  ["cup", "tbsp", "tsp", "g", "oz", "lb", "ml", "l", "pound", "pinch", "dash", "handful"]

def unitCore : Piece := fun l => (unitWords.map (fun w => litM w.data)).flatMap (fun f => f l)

-- A unit word with its optional plural s.
def unitFull : Piece := seqM unitCore (optM (litM ['s']))

-- (?:of\s+)? .
def ofPart : Piece := optM (seqM (litM ['o', 'f']) (plusM isSpaceP))

-- (.+): '.' is any character but newline (no DOTALL in the source).
def dotPlusM : Piece := plusM (fun c => c != '\n')

-- All complete parses of one comma-free item, in priority order; the
-- groups are (amount capture, unit capture or none, name capture).
def itemParses (l : List Char) : List (List Char × Option (List Char) × List Char) :=
  (amountGroup l).flatMap (fun p1 =>
  (starM isSpaceP p1.2).flatMap (fun p2 =>
  (((unitFull p2.2).map (fun (q : List Char × List Char) =>
        ((some q.1 : Option (List Char)), q.2))
      ++ [(none, p2.2)]).flatMap (fun p3 =>
  (starM isSpaceP p3.2).flatMap (fun p4 =>
  (ofPart p4.2).flatMap (fun p5 =>
  (dotPlusM p5.2).filterMap (fun (p6 : List Char × List Char) =>
    if p6.2.isEmpty then some (p1.1, p3.1, p6.1) else none)))))))

def matchItem (l : List Char) : Option (List Char × Option (List Char) × List Char) :=
  (itemParses l).head?

-- re.findall(r'([^,()]+(?:\([^)]*\)[^,]*)?)', s): leftmost matches, scan
-- resumes after each; positions where [^,()]+ cannot start are skipped.
-- Fuel is only for structural recursion; fuel = length never runs out.
def findItemsAux : Nat → List Char → List (List Char)
  | 0, _ => []
  | _ + 1, [] => []
  | fuel + 1, c :: rest =>
    if c = ',' ∨ c = '(' ∨ c = ')' then findItemsAux fuel rest
    else
      let run := (c :: rest).takeWhile (fun d => !(d = ',' || d = '(' || d = ')'))
      let r1 := (c :: rest).drop run.length
      match r1 with
      | '(' :: r2 =>
        let inner := r2.takeWhile (fun d => d != ')')
        let r3 := r2.drop inner.length
        match r3 with
        | ')' :: r4 =>
          let tl := r4.takeWhile (fun d => d != ',')
          (run ++ '(' :: inner ++ ')' :: tl) :: findItemsAux fuel (r4.drop tl.length)
        | _ => run :: findItemsAux fuel r1
      | _ => run :: findItemsAux fuel r1

def findItems (s : String) : List (List Char) := findItemsAux s.data.length s.data

-- models/schemas.py NutritionIngredient (the fields this core reads).
structure NutritionIngredient where
  name : String
  amount : Option ℚ
  unit : Option String
deriving DecidableEq

-- The per-item loop body of parse_ingredient_string.  The outer Option is
-- an uncaught exception from parse_amount (zero denominator); a regex
-- failure or an empty item just skips the item, as in the source.
def parseItems : List (List Char) → Option (List NutritionIngredient)
  | [] => some []
  | item0 :: rest =>
    let item := stripL item0
    if item.isEmpty then parseItems rest
    else
      match matchItem item with
      | none => parseItems rest
      | some (g1, g2, g3) =>
        let amt : Option (Option ℚ) :=
          if g1.isEmpty then some none
          else
            match parse_amount ⟨g1⟩ with
            | some v => some (some v)
            | none => none
        match amt with
        | none => none
        | some am =>
          match parseItems rest with
          | none => none
          | some tail2 =>
            some (⟨⟨stripL g3⟩, am, g2.map (fun u => (⟨stripL u⟩ : String))⟩ :: tail2)

-- NutritionServiceV2.parse_ingredient_string.
def parse_ingredient_string (s : String) : Option (List NutritionIngredient) :=
  parseItems (findItems s)

-- ## Nutrient extractor (get_food_nutrients, lines 372-428)

-- The 15 canonical nutrient keys, in nutrient_map declaration order.
inductive NutrientKey where
  | calories | total_fat | saturated_fat | trans_fat | cholesterol | sodium
  | total_carbohydrates | dietary_fiber | total_sugars | added_sugars | protein
  | vitamin_d | calcium | iron | potassium
deriving DecidableEq, Fintype

def allNutrientKeys : List NutrientKey :=
  [.calories, .total_fat, .saturated_fat, .trans_fat, .cholesterol, .sodium,
   .total_carbohydrates, .dietary_fiber, .total_sugars, .added_sugars, .protein,
   .vitamin_d, .calcium, .iron, .potassium]

-- self.nutrient_map: canonical key -> FDC nutrient id.
def nutrient_map : NutrientKey → Int
  | .calories => 1008
  | .total_fat => 1004
  | .saturated_fat => 1258
  | .trans_fat => 1257
  | .cholesterol => 1253
  | .sodium => 1093
  | .total_carbohydrates => 1005
  | .dietary_fiber => 1079
  | .total_sugars => 2000
  | .added_sugars => 1235
  | .protein => 1003
  | .vitamin_d => 1114
  | .calcium => 1087
  | .iron => 1089
  | .potassium => 1092

-- One raw foodNutrients entry.  `nutrient = some i` models a present
-- 'nutrient' sub-object whose optional 'id' is i; `nutrientId`/`value`
-- are the flat shape; ids are taken as integers (the int() conversion).
structure FoodNutrientEntry where
  nutrient : Option (Option Int)
  amount : Option ℚ
  nutrientId : Option Int
  value : Option ℚ
deriving DecidableEq

-- Lines 407-418: pick the (id, amount) under whichever shape is present;
-- the 'nutrient' shape is checked first, and both parts must be non-null.
def entryIdAmount (e : FoodNutrientEntry) : Option (Int × ℚ) :=
  let ia : Option Int × Option ℚ :=
    match e.nutrient with
    | some inner => (inner, e.amount)
    | none =>
      match e.nutrientId with
      | some nid => (some nid, e.value)
      | none => (none, none)
  match ia.1, ia.2 with
  | some i, some a => some (i, a)
  | _, _ => none

-- Lines 421-424: the first nutrient_map item whose id equals the entry's.
def keyOfId (i : Int) : Option NutrientKey :=
  allNutrientKeys.find? (fun k => nutrient_map k == i)

-- Pointwise dict update nutrients[k] = v.
def updateNut (m : NutrientKey → Option ℚ) (k : NutrientKey) (v : ℚ) :
    NutrientKey → Option ℚ :=
  fun j => if j = k then some v else m j

-- One iteration of the loop over result['foodNutrients'].
def nutStep (acc : NutrientKey → Option ℚ) (e : FoodNutrientEntry) :
    NutrientKey → Option ℚ :=
  match entryIdAmount e with
  | some ia =>
    match keyOfId ia.1 with
    | some k => updateNut acc k ia.2
    | none => acc
  | none => acc

-- The dict built by the loop over result['foodNutrients'].
def buildNutrients (entries : List FoodNutrientEntry) : NutrientKey → Option ℚ :=
  entries.foldl nutStep (fun _ => none)

-- NutritionServiceV2.get_food_nutrients.  envN stands for the external
-- reference: envN id is the foodNutrients list the network returns for a
-- food id; a network error and an empty payload both yield the empty
-- dict, so both are the [] payload.
def get_food_nutrients (envN : String → List FoodNutrientEntry) (fdc_id : String) :
    NutrientKey → Option ℚ :=
  if fdc_id = "water" then fun _ => some 0
  else buildNutrients (envN fdc_id)

-- Python `if not nutrients` on the built dict: no key was ever stored.
def nutrientsEmpty (m : NutrientKey → Option ℚ) : Bool :=
  allNutrientKeys.all (fun k => (m k).isNone)

-- Does this payload entry carry the table id of key k (under either
-- shape, with both its parts present)?
def entryMatches (k : NutrientKey) (e : FoodNutrientEntry) : Bool :=
  match entryIdAmount e with
  | some ia => nutrient_map k == ia.1
  | none => false

-- Spec-side description of the extractor (for the refinement claim C7):
-- the value recorded for key k is the amount of the last payload entry
-- whose id, under either shape, is exactly the table id of k; entries
-- with any other id are ignored.
def specNutrientLookup (entries : List FoodNutrientEntry) (k : NutrientKey) : Option ℚ :=
  (entries.reverse.find? (entryMatches k)).bind
    (fun e => (entryIdAmount e).map (fun ia => ia.2))

-- ## Food matcher (search_food, lines 209-370)

structure Food where
  fdcId : String
  description : String
  dataType : String
deriving DecidableEq

-- self.food_mappings.
def food_mappings : List (String × String) :=
  [("potatoes", "170026"), ("water", "174858"), ("salt", "173468"),
   ("baking soda", "171405"), ("parmesan cheese", "171242"), ("butter", "173430"),
   ("milk", "746782"), ("whole milk", "746782"), ("2% milk", "746786"),
   ("1% milk", "746784"), ("skim milk", "746783")]

def prepared_indicators : List String :=
  ["sandwich", "dish", "recipe", "prepared", "with", "served", "in", "on"]

def basic_ingredients : List (String × List String) :=
  [("milk", ["coconut", "almond", "soy", "oat", "rice", "goat", "flavored"]),
   ("cheese", ["processed", "food", "product", "substitute"]),
   ("butter", ["substitute", "spread", "margarine"]),
   ("cream", ["substitute", "non-dairy", "imitation"]),
   ("oil", ["blend", "substitute"]),
   ("flour", ["blend", "mix"]),
   ("sugar", ["substitute", "blend", "artificial"])]

def prep_methods : List String :=
  ["raw", "cooked", "boiled", "baked", "fried", "steamed", "fresh"]

-- Lines 252-352: the score of one candidate.  query is the original query
-- string: query_lower (line 222) is computed before the parenthesis
-- cleaning, query_words (line 254) after it, exactly as in the source.
def scoreFood (query : String) (food : Food) : ℚ :=
  let query_lower := lowerS query
  let cleaned := stripS ⟨removeParens query.data⟩
  let query_words := (splitWS (lowerL cleaned.data)).dedup
  let description := lowerL food.description.data
  let description_words := (splitWS description).dedup
  let data_type := lowerS food.dataType
  let exact_bonus : ℚ := if query_lower.data = description then 100 else 0
  let matching_words := query_words.filter (fun w => description_words.contains w)
  let base_word_score : ℚ := (matching_words.length : ℚ) * 10
  let word_match_score : ℚ :=
    if (splitWS query_lower.data).all (fun w => isSubstr w description) then
      base_word_score * 1.5
    else base_word_score
  let length_penalty : ℚ := (description_words.length : ℚ) * 2
  let category_bonus : ℚ := if data_type = "sr legacy" ∨ data_type = "foundation" then 20 else 0
  let brand_penalty : ℚ :=
    if substrS "brand" data_type ∨ substrS "branded" data_type then 10 else 0
  let prepared_food_penalty : ℚ :=
    ((prepared_indicators.filter (fun ind => isSubstr ind.data description)).length : ℚ) * 25
  let modifier_penalty : ℚ :=
    ((basic_ingredients.map (fun bi =>
        if substrS bi.1 query_lower then
          (bi.2.filter (fun m =>
            isSubstr m.data description && !(isSubstr m.data query_lower.data))).length
        else 0)).sum : ℚ) * 15
  let query_preps := prep_methods.filter (fun m => substrS m query_lower)
  let desc_preps := prep_methods.filter (fun m => isSubstr m.data description)
  let prep_bonus : ℚ :=
    if ¬query_preps.isEmpty ∧ ¬desc_preps.isEmpty then
      if query_preps.toFinset = desc_preps.toFinset then 15 else 0
    else if query_preps.isEmpty ∧ isSubstr "raw".data description then 10 else 0
  exact_bonus + word_match_score - length_penalty + category_bonus - brand_penalty
    - prepared_food_penalty - modifier_penalty + prep_bonus

-- Stable descending insertion sort: a model of Python list.sort with
-- reverse=True (stable, so equal keys keep their encounter order).
def insDesc {α : Type} (key : α → ℚ) (x : α) : List α → List α
  | [] => [x]
  | y :: ys => if key y ≤ key x then x :: y :: ys else y :: insDesc key x ys

def sortDesc {α : Type} (key : α → ℚ) : List α → List α
  | [] => []
  | x :: xs => insDesc key x (sortDesc key xs)

-- Lines 339-365: score each candidate in encounter order, sort by score
-- descending (stable), return the first.
def selectBest (query : String) (foods : List Food) : Option Food :=
  ((sortDesc (fun (p : ℚ × Food) => p.1)
      (foods.map (fun f => (scoreFood query f, f)))).head?).map (fun p => p.2)

-- NutritionServiceV2.search_food.  envS stands for the external search:
-- envS q is the candidate list the reference service returns for the
-- cleaned query q (empty also covers a network error).
def search_food (envS : String → List Food) (query : String) : List Food :=
  if lowerS query = "water" then [⟨"water", "Water", "Custom"⟩]
  else
    match (food_mappings.find? (fun p => p.1 == lowerS query)).map (fun p => p.2) with
    | some fid => [⟨fid, query, "SR Legacy"⟩]
    | none =>
      let cleaned := stripS ⟨removeParens query.data⟩
      match envS cleaned with
      | [] => []
      | foods =>
        match selectBest query foods with
        | some f => [f]
        | none => []

-- ## Aggregator (calculate_nutrition, lines 458-577)

-- models/schemas.py NutrientInfo.
structure NutrientInfo where
  amount : ℚ
  unit : String
deriving DecidableEq

-- models/schemas.py NutritionLabel.
structure NutritionLabel where
  serving_size : NutrientInfo
  calories : ℚ
  total_fat : NutrientInfo
  saturated_fat : NutrientInfo
  trans_fat : NutrientInfo
  cholesterol : NutrientInfo
  sodium : NutrientInfo
  total_carbohydrates : NutrientInfo
  dietary_fiber : NutrientInfo
  total_sugars : NutrientInfo
  added_sugars : NutrientInfo
  protein : NutrientInfo
  vitamin_d : NutrientInfo
  calcium : NutrientInfo
  iron : NutrientInfo
  potassium : NutrientInfo
deriving DecidableEq

-- models/schemas.py IngredientNutrition.
structure IngredientNutrition where
  ingredient : NutritionIngredient
  nutrition : Option NutritionLabel
  matched_food : Option String
  converted_amount : Option ℚ
deriving DecidableEq

-- One ingredient_details row (lines 490-498).
structure IngredientDetail where
  original_ingredient : NutritionIngredient
  matched_food : String
  matched_id : String
  data_type : String
  converted_amount : ℚ
  original_amount : Option ℚ
  original_unit : Option String
deriving DecidableEq

-- models/schemas.py NutritionResponse (the fields the aggregator fills).
structure NutritionResponse where
  ingredients : List IngredientNutrition
  total : NutritionLabel
  ingredient_details : List IngredientDetail
deriving DecidableEq

-- Python round(x, 1): round half to even at one decimal, modelled exactly
-- on the rational value.
def roundHalfEven (x : ℚ) : ℤ :=
  if x - ⌊x⌋ < 1 / 2 then ⌊x⌋
  else if (1 : ℚ) / 2 < x - ⌊x⌋ then ⌊x⌋ + 1
  else if ⌊x⌋ % 2 = 0 then ⌊x⌋ else ⌊x⌋ + 1

def round1 (x : ℚ) : ℚ := (roundHalfEven (x * 10) : ℚ) / 10

-- Lines 507-513: per-key scaled value; a key absent from the extracted
-- dict contributes 0 (the .get(key, 0) default) and adds nothing.
def contribOf (nut : NutrientKey → Option ℚ) (grams : ℚ) (k : NutrientKey) : ℚ :=
  match nut k with
  | some v => v * grams / 100
  | none => 0

-- Lines 518-535 and 554-571 build a label the same way: each field is the
-- corresponding value rounded to one decimal, with the units shown there.
def mkLabel (serving : ℚ) (vals : NutrientKey → ℚ) : NutritionLabel :=
  { serving_size := ⟨serving, "g"⟩
    calories := round1 (vals .calories)
    total_fat := ⟨round1 (vals .total_fat), "g"⟩
    saturated_fat := ⟨round1 (vals .saturated_fat), "g"⟩
    trans_fat := ⟨round1 (vals .trans_fat), "g"⟩
    cholesterol := ⟨round1 (vals .cholesterol), "mg"⟩
    sodium := ⟨round1 (vals .sodium), "mg"⟩
    total_carbohydrates := ⟨round1 (vals .total_carbohydrates), "g"⟩
    dietary_fiber := ⟨round1 (vals .dietary_fiber), "g"⟩
    total_sugars := ⟨round1 (vals .total_sugars), "g"⟩
    added_sugars := ⟨round1 (vals .added_sugars), "g"⟩
    protein := ⟨round1 (vals .protein), "g"⟩
    vitamin_d := ⟨round1 (vals .vitamin_d), "mcg"⟩
    calcium := ⟨round1 (vals .calcium), "mg"⟩
    iron := ⟨round1 (vals .iron), "mg"⟩
    potassium := ⟨round1 (vals .potassium), "mg"⟩ }

-- Python `ingredient.amount or 1.0`: None and 0.0 are both falsy.
def amountOrOne : Option ℚ → ℚ
  | none => 1
  | some a => if a = 0 then 1 else a

-- The loop of calculate_nutrition, with the four mutated locals as
-- accumulators: ingredient_nutrients, ingredient_details, total_nutrients
-- and total_weight.  The two `continue` paths recurse unchanged (except
-- that the second has already appended its ingredient_details row).
def calcLoop (envS : String → List Food) (envN : String → List FoodNutrientEntry) :
    List NutritionIngredient → List IngredientNutrition → List IngredientDetail →
    (NutrientKey → ℚ) → ℚ →
    List IngredientNutrition × List IngredientDetail × (NutrientKey → ℚ) × ℚ
  | [], accI, accD, tot, w => (accI, accD, tot, w)
  | ing :: rest, accI, accD, tot, w =>
    let grams := convert_to_grams (amountOrOne ing.amount) ing.unit ing.name
    match search_food envS ing.name with
    | [] => calcLoop envS envN rest accI accD tot w
    | f :: _ =>
      let accD2 := accD ++ [⟨ing, f.description, f.fdcId, f.dataType, grams, ing.amount, ing.unit⟩]
      let nut := get_food_nutrients envN f.fdcId
      if nutrientsEmpty nut then calcLoop envS envN rest accI accD2 tot w
      else
        let vals := fun k => contribOf nut grams k
        calcLoop envS envN rest
          (accI ++ [⟨ing, some (mkLabel grams vals), some f.description, some grams⟩])
          accD2 (fun k => tot k + vals k) (w + grams)

-- NutritionServiceV2.calculate_nutrition.
def calculate_nutrition (envS : String → List Food) (envN : String → List FoodNutrientEntry)
    (ingredients : List NutritionIngredient) : NutritionResponse :=
  let r := calcLoop envS envN ingredients [] [] (fun _ => 0) 0
  ⟨r.1, mkLabel r.2.2.2 r.2.2.1, r.2.1⟩

-- The processed rows: the ingredients that pass both checks, with their
-- converted grams and raw (unrounded) per-key contributions.
structure ProcRow where
  ing : NutritionIngredient
  food : Food
  grams : ℚ
  vals : NutrientKey → ℚ

def processedRows (envS : String → List Food) (envN : String → List FoodNutrientEntry) :
    List NutritionIngredient → List ProcRow
  | [] => []
  | ing :: rest =>
    let grams := convert_to_grams (amountOrOne ing.amount) ing.unit ing.name
    match search_food envS ing.name with
    | [] => processedRows envS envN rest
    | f :: _ =>
      let nut := get_food_nutrients envN f.fdcId
      if nutrientsEmpty nut then processedRows envS envN rest
      else ⟨ing, f, grams, fun k => contribOf nut grams k⟩ :: processedRows envS envN rest

-- Concrete test environments: an external reference that returns no
-- candidates and no nutrient payloads, and two concrete ingredients.
def env0S : String → List Food := fun _ => []

def env0N : String → List FoodNutrientEntry := fun _ => []

def mysteryIng : NutritionIngredient := ⟨"mystery", some 1, none⟩

def waterIng : NutritionIngredient := ⟨"water", some 1, none⟩

-- ## Helper lemmas

theorem findVal_pos {tbl : List (String × ℚ)} {pr : String × ℚ → Bool} {p : String × ℚ}
    (h : tbl.find? pr = some p) (hp : ∀ q ∈ tbl, 0 < q.2) : 0 < p.2 :=
  hp p (List.mem_of_find?_eq_some h)

theorem lookupQ_pos {tbl : List (String × ℚ)} {k : String} {v : ℚ}
    (h : lookupQ tbl k = some v) (hp : ∀ q ∈ tbl, 0 < q.2) : 0 < v := by
  unfold lookupQ at h
  cases hf : tbl.find? (fun p => p.1 == k) with
  | none => rw [hf] at h; simp at h
  | some p =>
    rw [hf] at h
    simp only [Option.map_some', Option.some.injEq] at h
    rw [← h]
    exact hp p (List.mem_of_find?_eq_some hf)

theorem serving_sizes_pos : ∀ q ∈ serving_sizes, 0 < q.2 := by
  norm_num [serving_sizes]

theorem weight_conversion_pos : ∀ q ∈ weight_conversion, 0 < q.2 := by
  norm_num [weight_conversion]

theorem volume_conversion_pos : ∀ q ∈ volume_conversion, 0 < q.2 := by
  norm_num [volume_conversion]

theorem liquid_density_pos : ∀ q ∈ liquid_density, 0 < q.2 := by
  norm_num [liquid_density]

theorem tailUnits_pos {a : ℚ} (ha : 0 < a) (u : String) : 0 < tailUnits a u := by
  unfold tailUnits
  split_ifs <;> exact mul_pos ha (by norm_num [serving_default])

theorem noUnitBranch_pos {a : ℚ} (ha : 0 < a) (ing : String) : 0 < noUnitBranch a ing := by
  unfold noUnitBranch
  cases hf : serving_sizes.find? (fun p => substrS p.1 (lowerS ing)) with
  | none =>
    show 0 < a * serving_default
    exact mul_pos ha (by norm_num [serving_default])
  | some p =>
    show 0 < a * p.2
    exact mul_pos ha (findVal_pos hf serving_sizes_pos)

theorem get_density_factor_pos (ing : String) : 0 < get_density_factor ing := by
  unfold get_density_factor
  cases hf : liquid_density.find? (fun p => substrS p.1 (lowerS ing)) with
  | none => show (0 : ℚ) < 1; norm_num
  | some p =>
    show 0 < p.2
    exact findVal_pos hf liquid_density_pos

-- convert_to_grams reads its ingredient argument only through lowerS.
theorem convert_lower_congr (a : ℚ) (u : Option String) {i1 i2 : String}
    (h : lowerS i1 = lowerS i2) : convert_to_grams a u i1 = convert_to_grams a u i2 := by
  simp only [convert_to_grams, noUnitBranch, get_density_factor, h]

-- ## Claim theorems: the unit converter

/-- C4 (counterexample): the claim says convert_to_grams is strictly
positive for every valid non-negative amount, but amount 0 is non-negative
and yields exactly 0 grams. -/
theorem convert_to_grams_zero_cex :
    convert_to_grams 0 none "flour" = 0 ∧ ¬ 0 < convert_to_grams 0 none "flour" := by
  rw [show convert_to_grams 0 none "flour" = 0 * (30 : ℚ) from rfl]
  norm_num

/-- C4 (amended): for every strictly positive amount, every unit (present,
absent or empty) and every ingredient name, convert_to_grams returns a
strictly positive number of grams. -/
theorem convert_to_grams_pos (a : ℚ) (ha : 0 < a) (unit : Option String)
    (ingredient : String) : 0 < convert_to_grams a unit ingredient := by
  cases unit with
  | none => exact noUnitBranch_pos ha ingredient
  | some u0 =>
    by_cases h0 : u0 = ""
    · simp only [convert_to_grams, if_pos h0]
      exact noUnitBranch_pos ha ingredient
    · simp only [convert_to_grams, if_neg h0]
      split
      next w hw => exact mul_pos ha (lookupQ_pos hw weight_conversion_pos)
      next hw =>
        split
        next vml hv =>
          split_ifs with h1 h2 h3 h4 h5 h6 h7 h8
          · exact mul_pos ha (lookupQ_pos hv volume_conversion_pos)
          · rcases h2 with h | h <;> rw [h]
            · rw [show servingAt "salt" = (6 : ℚ) from rfl]
              exact mul_pos ha (by norm_num)
            · rw [show servingAt "baking soda" = (4.6 : ℚ) from rfl]
              exact mul_pos ha (by norm_num)
          · rcases h2 with h | h <;> rw [h]
            · rw [show servingAt "salt" = (6 : ℚ) from rfl]
              exact mul_pos ha (by norm_num)
            · rw [show servingAt "baking soda" = (4.6 : ℚ) from rfl]
              exact mul_pos ha (by norm_num)
          · exact tailUnits_pos ha _
          · rcases h5 with h | h <;> rw [h]
            · rw [show servingAt "butter" = (14.2 : ℚ) from rfl]
              exact mul_pos ha (by norm_num)
            · rw [show servingAt "parmesan cheese" = (5 : ℚ) from rfl]
              exact mul_pos ha (by norm_num)
          · rcases h5 with h | h <;> rw [h]
            · rw [show servingAt "butter" = (14.2 : ℚ) from rfl]
              exact mul_pos ha (by norm_num)
            · rw [show servingAt "parmesan cheese" = (5 : ℚ) from rfl]
              exact mul_pos ha (by norm_num)
          · exact tailUnits_pos ha _
          · exact mul_pos ha (by norm_num)
          · exact mul_pos (mul_pos ha (lookupQ_pos hv volume_conversion_pos))
              (get_density_factor_pos ingredient)
        next hv => exact tailUnits_pos ha _

/-- C4 (witness): convert_to_grams_pos applied at a concrete input. -/
theorem convert_to_grams_pos_witness :
    (0 : ℚ) < 2 ∧ 0 < convert_to_grams 2 (some "oz") "flour" :=
  ⟨by norm_num, convert_to_grams_pos 2 (by norm_num) (some "oz") "flour"⟩

/-- C5: one tablespoon of butter converts by the butter-specific override
to exactly 14.2 g (not the generic 14.787 g tbsp volume), and one cup of
water converts to exactly 236.588 g. -/
theorem convert_butter_tbsp_water_cup :
    convert_to_grams 1 (some "tbsp") "butter" = 14.2 ∧
    convert_to_grams 1 (some "cup") "water" = 236.588 := by
  constructor
  · rw [show convert_to_grams 1 (some "tbsp") "butter" = 1 * (14.2 : ℚ) from rfl]
    norm_num
  · rw [show convert_to_grams 1 (some "cup") "water" = 1 * (236.588 : ℚ) from rfl]
    norm_num

/-- C6 (counterexample): the claim lists avocado = 170 g in the standard
serving-mass table, but the table in convert_to_grams's service maps
avocado to 50 g, so one unitless avocado converts to 50 g, not 170 g. -/
theorem convert_avocado_cex :
    convert_to_grams 1 none "avocado" = 50 ∧ convert_to_grams 1 none "avocado" ≠ 1 * 170 := by
  rw [show convert_to_grams 1 none "avocado" = 1 * (50 : ℚ) from rfl]
  norm_num

/-- C6 (amended): with no unit, convert_to_grams multiplies the amount by
the serving mass found by case-insensitive substring lookup in the
serving-size table — egg = 50 g, avocado = 50 g (not 170 g), cheese = 28 g,
salt = 6 g — and by the default serving mass 30 g when no entry matches. -/
theorem convert_no_unit_lookup (a : ℚ) (name : String) :
    (∀ p, serving_sizes.find? (fun q => substrS q.1 (lowerS name)) = some p →
        convert_to_grams a none name = a * p.2) ∧
    (serving_sizes.find? (fun q => substrS q.1 (lowerS name)) = none →
        convert_to_grams a none name = a * 30) ∧
    convert_to_grams a none "egg" = a * 50 ∧
    convert_to_grams a none "avocado" = a * 50 ∧
    convert_to_grams a none "cheese" = a * 28 ∧
    convert_to_grams a none "salt" = a * 6 := by
  refine ⟨?_, ?_, rfl, rfl, rfl, rfl⟩
  · intro p hf
    show noUnitBranch a name = a * p.2
    unfold noUnitBranch
    rw [hf]
  · intro hf
    show noUnitBranch a name = a * 30
    unfold noUnitBranch
    rw [hf]
    rfl

/-- C6 (witness): convert_no_unit_lookup applied at a concrete input with
no matching table entry. -/
theorem convert_no_unit_lookup_witness :
    serving_sizes.find? (fun q => substrS q.1 (lowerS "dragonfruit")) = none ∧
    convert_to_grams 2 none "dragonfruit" = 2 * 30 :=
  ⟨rfl, (convert_no_unit_lookup 2 "dragonfruit").2.1 rfl⟩

/-- C10 (counterexample): potato is an override ingredient (cup = 150 g),
yet with the volume unit tsp, outside its hand-tuned set, the code takes
the generic volume-times-density path and returns 4.929 g, not a × 30. -/
theorem convert_potato_tsp_cex :
    convert_to_grams 1 (some "tsp") "potato" = 4.929 ∧
    convert_to_grams 1 (some "tsp") "potato" ≠ 1 * 30 := by
  rw [show convert_to_grams 1 (some "tsp") "potato" = 1 * (4.929 : ℚ) * 1 from rfl]
  norm_num

/-- C10 (amended): for the exact-name override ingredients salt, baking
soda, butter and parmesan cheese, a volume unit outside the hand-tuned set
falls through every override branch and returns a × 30 (the default
serving mass); potato, whose override covers only cup, instead takes the
generic volume-times-density path on any other volume unit. -/
theorem convert_override_fallthrough (a : ℚ) (u : String)
    (hu : u ∈ (["cup", "tbsp", "tsp", "fl oz", "ml", "l", "pint", "quart", "gallon"] :
      List String)) (ing : String) :
    ((lowerS ing = "salt" ∨ lowerS ing = "baking soda") → u ≠ "tsp" → u ≠ "tbsp" →
      convert_to_grams a (some u) ing = a * 30) ∧
    ((lowerS ing = "butter" ∨ lowerS ing = "parmesan cheese") → u ≠ "tbsp" → u ≠ "cup" →
      convert_to_grams a (some u) ing = a * 30) ∧
    (u ≠ "cup" → convert_to_grams a (some u) "potato"
        = a * (lookupQ volume_conversion u).getD 0 * get_density_factor "potato") ∧
    get_density_factor "potato" = 1 := by
  refine ⟨?_, ?_, ?_, rfl⟩
  · intro hing hts htb
    rcases hing with h | h
    · rw [convert_lower_congr a (some u) (show lowerS ing = lowerS "salt" by rw [h]; rfl)]
      fin_cases hu
      all_goals first
        | exact absurd rfl hts
        | exact absurd rfl htb
        | rfl
    · rw [convert_lower_congr a (some u)
        (show lowerS ing = lowerS "baking soda" by rw [h]; rfl)]
      fin_cases hu
      all_goals first
        | exact absurd rfl hts
        | exact absurd rfl htb
        | rfl
  · intro hing htb hcup
    rcases hing with h | h
    · rw [convert_lower_congr a (some u) (show lowerS ing = lowerS "butter" by rw [h]; rfl)]
      fin_cases hu
      all_goals first
        | exact absurd rfl htb
        | exact absurd rfl hcup
        | rfl
    · rw [convert_lower_congr a (some u)
        (show lowerS ing = lowerS "parmesan cheese" by rw [h]; rfl)]
      fin_cases hu
      all_goals first
        | exact absurd rfl htb
        | exact absurd rfl hcup
        | rfl
  · intro hcup
    fin_cases hu
    all_goals first
      | exact absurd rfl hcup
      | rfl

/-- C10 (witness): convert_override_fallthrough applied at a concrete
input (two cups of salt give 2 × 30 g). -/
theorem convert_override_fallthrough_witness :
    convert_to_grams 2 (some "cup") "salt" = 2 * 30 :=
  (convert_override_fallthrough 2 "cup" (by simp) "salt").1 (Or.inl rfl)
    (by decide) (by decide)

-- ## Claim theorems: the ingredient parser

/-- C3 (counterexample): the parser has no qualitative-amount phrases: on
"a pinch of salt" the item regex leaves the whole string as the name (the
unit alternation has no phrase "a pinch" and nothing is stripped), so the
resulting name is "a pinch of salt", not "salt", with no amount recorded. -/
theorem parse_pinch_cex :
    parse_ingredient_string "a pinch of salt" = some [⟨"a pinch of salt", none, none⟩] ∧
    ("a pinch of salt" : String) ≠ "salt" := ⟨rfl, by decide⟩

/-- C3 (amended): parse("a pinch of salt") records no amount and no unit
and returns the ingredient with the full string "a pinch of salt" as its
name; the qualitative phrase is not recognised or stripped. -/
theorem parse_pinch_amended :
    parse_ingredient_string "a pinch of salt" = some [⟨"a pinch of salt", none, none⟩] := rfl

/-- C8: the amount string "1 1/2" parses to exactly 3/2 through rational
fraction arithmetic, and parse("1 1/2 cups flour") yields the ingredient
flour with amount exactly 1.5 and unit "cups". -/
theorem parse_mixed_number_exact :
    parse_amount "1 1/2" = some 1.5 ∧
    parse_ingredient_string "1 1/2 cups flour" = some [⟨"flour", some 1.5, some "cups"⟩] := by
  constructor
  · rw [show parse_amount "1 1/2"
        = some ((1 : ℚ) * ((1 : ℕ) : ℚ) + (1 : ℚ) * ((1 : ℕ) : ℚ) / ((2 : ℕ) : ℚ)) from rfl]
    norm_num
  · rw [show parse_ingredient_string "1 1/2 cups flour"
        = some [⟨"flour", some ((1 : ℚ) * ((1 : ℕ) : ℚ) + (1 : ℚ) * ((1 : ℕ) : ℚ) / ((2 : ℕ) : ℚ)),
            some "cups"⟩] from rfl]
    norm_num

-- ## Claim theorems: the nutrient extractor

theorem keyOfId_self : ∀ k : NutrientKey, keyOfId (nutrient_map k) = some k := by decide

theorem keyOfId_sound {i : Int} {k : NutrientKey} (h : keyOfId i = some k) :
    nutrient_map k = i := by
  have hp := List.find?_some h
  simpa using hp

theorem entryMatches_true {k : NutrientKey} {e : FoodNutrientEntry}
    (h : entryMatches k e = true) :
    ∃ ia, entryIdAmount e = some ia ∧ nutrient_map k = ia.1 := by
  unfold entryMatches at h
  cases hia : entryIdAmount e with
  | none => rw [hia] at h; simp at h
  | some ia =>
    rw [hia] at h
    exact ⟨ia, rfl, by simpa using h⟩

theorem entryMatches_false {k : NutrientKey} {e : FoodNutrientEntry}
    (h : ¬ entryMatches k e = true) {ia} (hia : entryIdAmount e = some ia) :
    nutrient_map k ≠ ia.1 := by
  intro hk
  apply h
  unfold entryMatches
  rw [hia]
  simpa using hk

theorem nutStep_foldl_spec (entries : List FoodNutrientEntry) :
    ∀ (acc : NutrientKey → Option ℚ) (k : NutrientKey),
      List.foldl nutStep acc entries k
        = match specNutrientLookup entries k with
          | some v => some v
          | none => acc k := by
  induction entries with
  | nil => intro acc k; rfl
  | cons e es ih =>
    intro acc k
    show List.foldl nutStep (nutStep acc e) es k = _
    rw [ih (nutStep acc e) k]
    unfold specNutrientLookup
    rw [show (e :: es).reverse = es.reverse ++ [e] from by simp]
    rw [List.find?_append]
    cases hf : es.reverse.find? (entryMatches k) with
    | some e0 =>
      obtain ⟨ia, hia, _⟩ := entryMatches_true (List.find?_some hf)
      simp [hf, hia]
    | none =>
      simp only [Option.none_or]
      by_cases he : entryMatches k e = true
      · obtain ⟨ia, hia, hid⟩ := entryMatches_true he
        have hfind : [e].find? (entryMatches k) = some e := by simp [he]
        rw [hfind]
        unfold nutStep
        simp [hia, ← hid, keyOfId_self, updateNut]
      · have he2 : entryMatches k e = false := by simpa using he
        have hfind : [e].find? (entryMatches k) = none := by
          simp [List.find?, he2]
        rw [hfind]
        unfold nutStep
        cases hia : entryIdAmount e with
        | none => simp
        | some ia =>
          simp only [hia]
          cases hk : keyOfId ia.1 with
          | none => simp
          | some k2 =>
            have hne : k ≠ k2 := by
              intro hkk
              exact entryMatches_false he hia (by rw [hkk]; exact keyOfId_sound hk)
            simp [updateNut, hne]

/-- C7: the extractor honors the 15-entry nutrient-ID table exactly: for
any payload, the value recorded for a canonical key is the amount of the
last entry whose identifying field (accepted under either payload shape)
equals that key's table id, every unrecognized nutrient id being ignored;
and for the water food id it returns the all-zero map over all 15 keys
without consulting the external reference. -/
theorem get_food_nutrients_spec :
    (∀ envN envN' : String → List FoodNutrientEntry,
      get_food_nutrients envN "water" = get_food_nutrients envN' "water") ∧
    (∀ (envN : String → List FoodNutrientEntry) (k : NutrientKey),
      get_food_nutrients envN "water" k = some 0) ∧
    (∀ (envN : String → List FoodNutrientEntry) (fdc : String), fdc ≠ "water" →
      get_food_nutrients envN fdc = buildNutrients (envN fdc)) ∧
    (∀ (entries : List FoodNutrientEntry) (k : NutrientKey),
      buildNutrients entries k = specNutrientLookup entries k) := by
  refine ⟨fun _ _ => rfl, fun _ _ => rfl, ?_, ?_⟩
  · intro envN fdc hne
    unfold get_food_nutrients
    rw [if_neg hne]
  · intro entries k
    show List.foldl nutStep (fun _ => none) entries k = _
    rw [nutStep_foldl_spec entries (fun _ => none) k]
    cases specNutrientLookup entries k <;> rfl

-- ## Claim theorems: the food matcher

theorem length_insDesc {α : Type} (key : α → ℚ) (x : α) (l : List α) :
    (insDesc key x l).length = l.length + 1 := by
  induction l with
  | nil => rfl
  | cons y ys ih =>
    unfold insDesc
    split_ifs <;> simp [ih]

theorem length_sortDesc {α : Type} (key : α → ℚ) (l : List α) :
    (sortDesc key l).length = l.length := by
  induction l with
  | nil => rfl
  | cons x xs ih =>
    show (insDesc key x (sortDesc key xs)).length = xs.length + 1
    rw [length_insDesc, ih]

-- The head of the stable descending sort is the element at the earliest
-- position achieving the maximal key.
theorem head_sortDesc {α : Type} (key : α → ℚ) :
    ∀ l : List α, l ≠ [] →
      ∃ i : ℕ, ∃ hi : i < l.length, (sortDesc key l).head? = some l[i] ∧
        (∀ j (hj : j < l.length), key l[j] ≤ key l[i]) ∧
        (∀ j (hj : j < l.length), j < i → key l[j] < key l[i]) := by
  intro l
  induction l with
  | nil => intro h; exact absurd rfl h
  | cons x xs ih =>
    intro _
    cases xs with
    | nil =>
      refine ⟨0, by simp, rfl, ?_, ?_⟩
      · intro j hj
        cases j with
        | zero => exact le_refl _
        | succ j2 => simp at hj
      · intro j hj hlt
        omega
    | cons y ys =>
      obtain ⟨i2, hi2, hhead, hmax, hstrict⟩ := ih (by simp)
      cases hs : sortDesc key (y :: ys) with
      | nil =>
        have hlen := length_sortDesc key (y :: ys)
        rw [hs] at hlen
        simp at hlen
      | cons s0 stail =>
        have hs0 : s0 = (y :: ys)[i2] := by
          rw [hs] at hhead
          simpa using hhead
        have hstep : sortDesc key (x :: y :: ys) = insDesc key x (s0 :: stail) := by
          rw [show sortDesc key (x :: y :: ys)
              = insDesc key x (sortDesc key (y :: ys)) from rfl, hs]
        by_cases hcmp : key s0 ≤ key x
        · refine ⟨0, by simp, ?_, ?_, ?_⟩
          · rw [hstep]
            simp [insDesc, hcmp]
          · intro j hj
            cases j with
            | zero => simp
            | succ j2 =>
              have hj2 : j2 < (y :: ys).length := by simpa using hj
              rw [List.getElem_cons_succ, List.getElem_cons_zero]
              calc key ((y :: ys)[j2]) ≤ key ((y :: ys)[i2]) := hmax j2 hj2
                _ = key s0 := by rw [hs0]
                _ ≤ key x := hcmp
          · intro j hj hlt
            omega
        · push_neg at hcmp
          refine ⟨i2 + 1, by simpa using Nat.succ_lt_succ hi2, ?_, ?_, ?_⟩
          · rw [hstep]
            rw [show insDesc key x (s0 :: stail)
                = if key s0 ≤ key x then x :: s0 :: stail
                  else s0 :: insDesc key x stail from rfl]
            rw [if_neg (not_le.mpr hcmp)]
            rw [List.getElem_cons_succ, ← hs0]
            rfl
          · intro j hj
            cases j with
            | zero =>
              rw [List.getElem_cons_zero, List.getElem_cons_succ, ← hs0]
              exact le_of_lt hcmp
            | succ j2 =>
              rw [List.getElem_cons_succ, List.getElem_cons_succ]
              exact hmax j2 (by simpa using hj)
          · intro j hj hlt
            cases j with
            | zero =>
              rw [List.getElem_cons_zero, List.getElem_cons_succ, ← hs0]
              exact hcmp
            | succ j2 =>
              rw [List.getElem_cons_succ, List.getElem_cons_succ]
              exact hstrict j2 (by simpa using hj) (by omega)

/-- C9: the scoring-and-selection step is deterministic — two runs on the
same query and candidate list give the same choice — and it selects the
highest-scoring candidate, ties broken by encounter order: the chosen food
sits at the earliest index achieving the maximal score. -/
theorem selectBest_deterministic (q : String) (fs : List Food) :
    selectBest q fs = selectBest q fs ∧
    (fs ≠ [] → ∃ i : ℕ, ∃ hi : i < fs.length,
      selectBest q fs = some fs[i] ∧
      (∀ j (hj : j < fs.length), scoreFood q fs[j] ≤ scoreFood q fs[i]) ∧
      (∀ j (hj : j < fs.length), j < i → scoreFood q fs[j] < scoreFood q fs[i])) := by
  refine ⟨rfl, ?_⟩
  intro hne
  have hpl : (fs.map (fun f => (scoreFood q f, f))) ≠ [] := by
    simpa using hne
  obtain ⟨i, hi, hhead, hmax, hstrict⟩ :=
    head_sortDesc (fun (p : ℚ × Food) => p.1) _ hpl
  have hlen : (fs.map (fun f => (scoreFood q f, f))).length = fs.length := by simp
  have hif : i < fs.length := by omega
  refine ⟨i, hif, ?_, ?_, ?_⟩
  · unfold selectBest
    rw [hhead]
    simp
  · intro j hj
    have h := hmax j (by omega)
    simpa using h
  · intro j hj hlt
    have h := hstrict j (by omega) hlt
    simpa using h

/-- C9 (witness): selectBest_deterministic instantiated on a two-element
tied candidate list. -/
theorem selectBest_deterministic_witness :
    ∃ i : ℕ, ∃ hi : i < ([⟨"1", "apple", "sr legacy"⟩, ⟨"2", "apple", "sr legacy"⟩] :
        List Food).length,
      selectBest "apple" [⟨"1", "apple", "sr legacy"⟩, ⟨"2", "apple", "sr legacy"⟩]
        = some ([⟨"1", "apple", "sr legacy"⟩, ⟨"2", "apple", "sr legacy"⟩] : List Food)[i] ∧
      (∀ j (hj : j < ([⟨"1", "apple", "sr legacy"⟩, ⟨"2", "apple", "sr legacy"⟩] :
          List Food).length),
        scoreFood "apple" ([⟨"1", "apple", "sr legacy"⟩, ⟨"2", "apple", "sr legacy"⟩] :
            List Food)[j]
          ≤ scoreFood "apple" ([⟨"1", "apple", "sr legacy"⟩, ⟨"2", "apple", "sr legacy"⟩] :
            List Food)[i]) ∧
      (∀ j (hj : j < ([⟨"1", "apple", "sr legacy"⟩, ⟨"2", "apple", "sr legacy"⟩] :
          List Food).length),
        j < i → scoreFood "apple" ([⟨"1", "apple", "sr legacy"⟩, ⟨"2", "apple", "sr legacy"⟩] :
            List Food)[j]
          < scoreFood "apple" ([⟨"1", "apple", "sr legacy"⟩, ⟨"2", "apple", "sr legacy"⟩] :
            List Food)[i]) :=
  (selectBest_deterministic "apple"
    [⟨"1", "apple", "sr legacy"⟩, ⟨"2", "apple", "sr legacy"⟩]).2 (by simp)

-- ## Claim theorems: the aggregator

theorem calcLoop_ins (envS : String → List Food) (envN : String → List FoodNutrientEntry) :
    ∀ (ings : List NutritionIngredient) accI accD tot w,
      (calcLoop envS envN ings accI accD tot w).1
        = accI ++ (processedRows envS envN ings).map
            (fun r => ⟨r.ing, some (mkLabel r.grams r.vals), some r.food.description,
              some r.grams⟩) := by
  intro ings
  induction ings with
  | nil => intro accI accD tot w; simp [calcLoop, processedRows]
  | cons ing rest ih =>
    intro accI accD tot w
    simp only [calcLoop, processedRows]
    cases hs : search_food envS ing.name with
    | nil => simpa using ih accI accD tot w
    | cons f fs =>
      by_cases hn : nutrientsEmpty (get_food_nutrients envN f.fdcId) = true
      · simp only [hn, if_true]
        simpa using ih accI _ tot w
      · simp only [hn, if_false, Bool.false_eq_true]
        rw [ih]
        simp

theorem calcLoop_tot (envS : String → List Food) (envN : String → List FoodNutrientEntry) :
    ∀ (ings : List NutritionIngredient) accI accD tot w (k : NutrientKey),
      (calcLoop envS envN ings accI accD tot w).2.2.1 k
        = tot k + ((processedRows envS envN ings).map (fun r => r.vals k)).sum := by
  intro ings
  induction ings with
  | nil => intro accI accD tot w k; simp [calcLoop, processedRows]
  | cons ing rest ih =>
    intro accI accD tot w k
    simp only [calcLoop, processedRows]
    cases hs : search_food envS ing.name with
    | nil => simpa using ih accI accD tot w k
    | cons f fs =>
      by_cases hn : nutrientsEmpty (get_food_nutrients envN f.fdcId) = true
      · simp only [hn, if_true]
        simpa using ih accI _ tot w k
      · simp only [hn, if_false, Bool.false_eq_true]
        rw [ih]
        simp [add_assoc]

theorem calcLoop_w (envS : String → List Food) (envN : String → List FoodNutrientEntry) :
    ∀ (ings : List NutritionIngredient) accI accD tot w,
      (calcLoop envS envN ings accI accD tot w).2.2.2
        = w + ((processedRows envS envN ings).map (fun r => r.grams)).sum := by
  intro ings
  induction ings with
  | nil => intro accI accD tot w; simp [calcLoop, processedRows]
  | cons ing rest ih =>
    intro accI accD tot w
    simp only [calcLoop, processedRows]
    cases hs : search_food envS ing.name with
    | nil => simpa using ih accI accD tot w
    | cons f fs =>
      by_cases hn : nutrientsEmpty (get_food_nutrients envN f.fdcId) = true
      · simp only [hn, if_true]
        simpa using ih accI _ tot w
      · simp only [hn, if_false, Bool.false_eq_true]
        rw [ih]
        simp [add_assoc]

theorem calculate_total_eq (envS : String → List Food)
    (envN : String → List FoodNutrientEntry) (ings : List NutritionIngredient) :
    (calculate_nutrition envS envN ings).total
      = mkLabel (((processedRows envS envN ings).map (fun r => r.grams)).sum)
          (fun k => ((processedRows envS envN ings).map (fun r => r.vals k)).sum) := by
  show mkLabel (calcLoop envS envN ings [] [] (fun _ => 0) 0).2.2.2
      (calcLoop envS envN ings [] [] (fun _ => 0) 0).2.2.1 = _
  rw [calcLoop_w]
  congr 1
  · simp
  · funext k
    rw [calcLoop_tot]
    simp

/-- C1: the response total is, field by field, the rounded (one decimal,
half to even) sum of the raw per-ingredient nutrient contributions of
exactly those ingredients that produced a nutrition label (the processed
rows, which are the rows of the response's ingredients list), and the
total serving size is the sum of their converted gram masses. -/
theorem calculate_nutrition_total_spec (envS : String → List Food)
    (envN : String → List FoodNutrientEntry) (ings : List NutritionIngredient) :
    (calculate_nutrition envS envN ings).ingredients.map (fun r => r.nutrition)
        = (processedRows envS envN ings).map (fun r => some (mkLabel r.grams r.vals)) ∧
    (calculate_nutrition envS envN ings).total.serving_size.amount
        = ((processedRows envS envN ings).map (fun r => r.grams)).sum ∧
    (calculate_nutrition envS envN ings).total.calories
        = round1 (((processedRows envS envN ings).map (fun r => r.vals .calories)).sum) ∧
    (calculate_nutrition envS envN ings).total.total_fat.amount
        = round1 (((processedRows envS envN ings).map (fun r => r.vals .total_fat)).sum) ∧
    (calculate_nutrition envS envN ings).total.saturated_fat.amount
        = round1 (((processedRows envS envN ings).map (fun r => r.vals .saturated_fat)).sum) ∧
    (calculate_nutrition envS envN ings).total.trans_fat.amount
        = round1 (((processedRows envS envN ings).map (fun r => r.vals .trans_fat)).sum) ∧
    (calculate_nutrition envS envN ings).total.cholesterol.amount
        = round1 (((processedRows envS envN ings).map (fun r => r.vals .cholesterol)).sum) ∧
    (calculate_nutrition envS envN ings).total.sodium.amount
        = round1 (((processedRows envS envN ings).map (fun r => r.vals .sodium)).sum) ∧
    (calculate_nutrition envS envN ings).total.total_carbohydrates.amount
        = round1 (((processedRows envS envN ings).map
            (fun r => r.vals .total_carbohydrates)).sum) ∧
    (calculate_nutrition envS envN ings).total.dietary_fiber.amount
        = round1 (((processedRows envS envN ings).map (fun r => r.vals .dietary_fiber)).sum) ∧
    (calculate_nutrition envS envN ings).total.total_sugars.amount
        = round1 (((processedRows envS envN ings).map (fun r => r.vals .total_sugars)).sum) ∧
    (calculate_nutrition envS envN ings).total.added_sugars.amount
        = round1 (((processedRows envS envN ings).map (fun r => r.vals .added_sugars)).sum) ∧
    (calculate_nutrition envS envN ings).total.protein.amount
        = round1 (((processedRows envS envN ings).map (fun r => r.vals .protein)).sum) ∧
    (calculate_nutrition envS envN ings).total.vitamin_d.amount
        = round1 (((processedRows envS envN ings).map (fun r => r.vals .vitamin_d)).sum) ∧
    (calculate_nutrition envS envN ings).total.calcium.amount
        = round1 (((processedRows envS envN ings).map (fun r => r.vals .calcium)).sum) ∧
    (calculate_nutrition envS envN ings).total.iron.amount
        = round1 (((processedRows envS envN ings).map (fun r => r.vals .iron)).sum) ∧
    (calculate_nutrition envS envN ings).total.potassium.amount
        = round1 (((processedRows envS envN ings).map (fun r => r.vals .potassium)).sum) := by
  have htot := calculate_total_eq envS envN ings
  refine ⟨?_, ?_, ?_, ?_, ?_, ?_, ?_, ?_, ?_, ?_, ?_, ?_, ?_, ?_, ?_, ?_, ?_⟩
  · show ((calcLoop envS envN ings [] [] (fun _ => 0) 0).1).map (fun r => r.nutrition) = _
    rw [calcLoop_ins]
    simp
  all_goals rw [htot]
  all_goals rfl

/-- C2 (counterexample): an ingredient whose external lookup returns no
candidate is dropped from the response entirely — the ingredients list is
empty rather than containing it once with nutrition = none. -/
theorem lookup_failure_cex :
    search_food env0S mysteryIng.name = [] ∧
    (calculate_nutrition env0S env0N [mysteryIng]).ingredients = [] ∧
    (calculate_nutrition env0S env0N [mysteryIng]).total.serving_size.amount = 0 :=
  ⟨rfl, rfl, rfl⟩

theorem calcLoop_skip_mid (envS : String → List Food)
    (envN : String → List FoodNutrientEntry) (ing : NutritionIngredient)
    (hskip : search_food envS ing.name = []) :
    ∀ (pre post : List NutritionIngredient) accI accD tot w,
      calcLoop envS envN (pre ++ ing :: post) accI accD tot w
        = calcLoop envS envN (pre ++ post) accI accD tot w := by
  intro pre
  induction pre with
  | nil =>
    intro post accI accD tot w
    show calcLoop envS envN (ing :: post) accI accD tot w = _
    simp only [calcLoop, hskip, List.nil_append]
  | cons p ps ih =>
    intro post accI accD tot w
    show calcLoop envS envN (p :: (ps ++ ing :: post)) accI accD tot w
        = calcLoop envS envN (p :: (ps ++ post)) accI accD tot w
    simp only [calcLoop]
    cases hs : search_food envS p.name with
    | nil => exact ih post accI accD tot w
    | cons f fs =>
      by_cases hn : nutrientsEmpty (get_food_nutrients envN f.fdcId) = true
      · simp only [hn, if_true]
        exact ih post accI _ tot w
      · simp only [hn, if_false, Bool.false_eq_true]
        exact ih post _ _ _ _

theorem processedRows_skip_mid (envS : String → List Food)
    (envN : String → List FoodNutrientEntry) (ing : NutritionIngredient)
    (h : ∃ f fs, search_food envS ing.name = f :: fs ∧
      nutrientsEmpty (get_food_nutrients envN f.fdcId) = true) :
    ∀ (pre post : List NutritionIngredient),
      processedRows envS envN (pre ++ ing :: post) = processedRows envS envN (pre ++ post) := by
  obtain ⟨f, fs, hs, hn⟩ := h
  intro pre
  induction pre with
  | nil =>
    intro post
    show processedRows envS envN (ing :: post) = _
    simp only [processedRows, hs, hn, if_true, List.nil_append]
  | cons p ps ih =>
    intro post
    show processedRows envS envN (p :: (ps ++ ing :: post))
        = processedRows envS envN (p :: (ps ++ post))
    simp only [processedRows]
    cases hp : search_food envS p.name with
    | nil => exact ih post
    | cons g gs =>
      by_cases hg : nutrientsEmpty (get_food_nutrients envN g.fdcId) = true
      · simp only [hg, if_true]
        exact ih post
      · simp only [hg, if_false, Bool.false_eq_true]
        rw [ih post]

/-- C2 (amended): an ingredient whose external lookup fails contributes
nothing and processing continues, but it is omitted from the response
rather than recorded with nutrition = none: with no search candidate the
whole response equals the response without that ingredient; with a
candidate but an empty nutrient payload the ingredients list and the total
equal those without it (only ingredient_details gains a row). -/
theorem lookup_failure_amended (envS : String → List Food)
    (envN : String → List FoodNutrientEntry) (pre post : List NutritionIngredient)
    (ing : NutritionIngredient) :
    (search_food envS ing.name = [] →
      calculate_nutrition envS envN (pre ++ ing :: post)
        = calculate_nutrition envS envN (pre ++ post)) ∧
    (∀ f fs, search_food envS ing.name = f :: fs →
      nutrientsEmpty (get_food_nutrients envN f.fdcId) = true →
      (calculate_nutrition envS envN (pre ++ ing :: post)).ingredients
        = (calculate_nutrition envS envN (pre ++ post)).ingredients ∧
      (calculate_nutrition envS envN (pre ++ ing :: post)).total
        = (calculate_nutrition envS envN (pre ++ post)).total) := by
  constructor
  · intro hskip
    show (⟨_, _, _⟩ : NutritionResponse) = ⟨_, _, _⟩
    rw [calcLoop_skip_mid envS envN ing hskip pre post]
  · intro f fs hs hn
    have hrows := processedRows_skip_mid envS envN ing ⟨f, fs, hs, hn⟩ pre post
    constructor
    · show (calcLoop envS envN (pre ++ ing :: post) [] [] (fun _ => 0) 0).1
          = (calcLoop envS envN (pre ++ post) [] [] (fun _ => 0) 0).1
      rw [calcLoop_ins, calcLoop_ins, hrows]
    · rw [calculate_total_eq, calculate_total_eq, hrows]

/-- C2 (witness): lookup_failure_amended applied to a concrete batch — a
mystery ingredient with no candidates followed by water. -/
theorem lookup_failure_amended_witness :
    calculate_nutrition env0S env0N ([] ++ mysteryIng :: [waterIng])
      = calculate_nutrition env0S env0N ([] ++ [waterIng]) :=
  (lookup_failure_amended env0S env0N [] [waterIng] mysteryIng).1 rfl

